import Mathlib

/-
Verification of `src/python/pyspark/resource/executorrequests.py`.

The file defines two classes:
  * `ExecutorResourceRequest` — an immutable value record with fields
    resourceName, amount, discoveryScript (default ""), vendor (default "").
  * `ExecutorResourceRequests` — a fluent builder.  When a JVM handle is
    available every setter forwards to the external Java object; on a
    locally-backed collector (`_jvm is None`, so
    `_java_executor_resource_requests is None`) every setter stores an
    `ExecutorResourceRequest` into the Python dict `_executor_resources`
    keyed by the canonical resource name and returns `self`.

All claims are scoped to the locally-backed collector, so the embedding
below models the local branch of every method.  The Python dict is
modelled as an association list with dict assignment and lookup
semantics.  Python exceptions raised by size-string parsing are modelled
with `Except`.
-/

namespace PysparkResource

/-- Amounts stored in an `ExecutorResourceRequest`.  Python values are
untyped; the setters of this file store either integers (the `cores`
amount, or a size string parsed to a byte count) or unparsed values such
as the raw string handed to `resource`. -/
inductive Amount where
  | int : Int → Amount
  | str : String → Amount
deriving DecidableEq, Repr

/-- The record class `ExecutorResourceRequest`: `__init__` stores
resourceName, amount, discoveryScript and vendor (the latter two default
to the empty string in the source) and the four properties read them
back unchanged. -/
structure ExecutorResourceRequest where
  resourceName : String
  amount : Amount
  discoveryScript : String
  vendor : String
deriving DecidableEq, Repr

/-- Python dict assignment `d[k] = v` on an association list: replace the
binding in place when the key is present, otherwise append it. -/
def dictInsert (d : List (String × α)) (k : String) (v : α) : List (String × α) :=
  match d with
  | [] => [(k, v)]
  | (k₀, v₀) :: rest =>
      if k₀ = k then (k, v) :: rest else (k₀, v₀) :: dictInsert rest k v

/-- Python dict lookup `d[k]` on an association list. -/
def dictGet (d : List (String × α)) (k : String) : Option α :=
  match d with
  | [] => none
  | (k₀, v₀) :: rest => if k₀ = k then some v₀ else dictGet rest k

/-- The keys of an association list, in insertion order. -/
def dictKeys (d : List (String × α)) : List String := d.map Prod.fst

/-- The class constant `ExecutorResourceRequests._CORES`. -/
def _CORES : String := "cores"

/-- The class constant `ExecutorResourceRequests._MEMORY`. -/
def _MEMORY : String := "memory"

/-- The class constant `ExecutorResourceRequests._OVERHEAD_MEM`. -/
def _OVERHEAD_MEM : String := "memoryOverhead"

/-- The class constant `ExecutorResourceRequests._PYSPARK_MEM`. -/
def _PYSPARK_MEM : String := "pyspark.memory"

/-- Reads a list of decimal digit characters as a natural number. -/
def digitsToNat (cs : List Char) : Nat :=
  cs.foldl (fun n c => n * 10 + (c.toNat - 48)) 0

/-- Byte multiplier of a size-string unit letter. -/
def unitBytes (c : Char) : Option Nat :=
  if c = 'k' then some 1024
  else if c = 'm' then some 1048576
  else if c = 'g' then some 1073741824
  else if c = 't' then some 1099511627776
  else none

/-- Modelled from the spec: the size-string parser `_parse_memory` is
imported from `pyspark.util`, a file that is not part of this repository
snapshot; only its call sites are under `src/`.  The spec says the
memory setters parse "a human size string into bytes" written in a
"size-with-unit format (e.g., \x22512m\x22, \x222g\x22)", that "2g"
denotes 2147483648 bytes, and that a malformed string such as "2x"
fails with a parsing error propagated to the caller.  We model the
parser accordingly: one or more decimal digits followed by a single
unit letter among k, m, g, t; anything else is a parsing error. -/
def _parse_memory (s : String) : Except String Nat :=
  match s.data.getLast? with
  | none => .error ("invalid format: " ++ s)
  | some u =>
      match unitBytes u with
      | none => .error ("invalid format: " ++ s)
      | some mult =>
          let ds := s.data.dropLast
          if ds.isEmpty then .error ("invalid format: " ++ s)
          else if ds.all Char.isDigit then .ok (digitsToNat ds * mult)
          else .error ("invalid format: " ++ s)

/-- The builder class `ExecutorResourceRequests`, restricted to the
locally-backed case where `__init__` ran with `_jvm is None` and set
`_executor_resources = \x7b\x7d`. -/
structure ExecutorResourceRequests where
  _executor_resources : List (String × ExecutorResourceRequest)
deriving DecidableEq, Repr

/-- The locally-backed constructor: `_executor_resources` starts empty. -/
def ExecutorResourceRequests.empty : ExecutorResourceRequests := ⟨[]⟩

/-- `requests` property, local branch: returns `_executor_resources`. -/
def ExecutorResourceRequests.requests (r : ExecutorResourceRequests) :
    List (String × ExecutorResourceRequest) :=
  r._executor_resources

/-- `memory`, local branch:
`self._executor_resources[self._MEMORY] =
  ExecutorResourceRequest(self._MEMORY, _parse_memory(amount))`.
A parse failure propagates to the caller; on success the method returns
`self` after the single dict assignment. -/
def ExecutorResourceRequests.memory (r : ExecutorResourceRequests)
    (amount : String) : Except String ExecutorResourceRequests :=
  match _parse_memory amount with
  | .error e => .error e
  | .ok n =>
      .ok ⟨dictInsert r._executor_resources _MEMORY
        ⟨_MEMORY, Amount.int (Int.ofNat n), "", ""⟩⟩

/-- `memoryOverhead`, local branch: same as `memory` with key
`_OVERHEAD_MEM`. -/
def ExecutorResourceRequests.memoryOverhead (r : ExecutorResourceRequests)
    (amount : String) : Except String ExecutorResourceRequests :=
  match _parse_memory amount with
  | .error e => .error e
  | .ok n =>
      .ok ⟨dictInsert r._executor_resources _OVERHEAD_MEM
        ⟨_OVERHEAD_MEM, Amount.int (Int.ofNat n), "", ""⟩⟩

/-- `pysparkMemory`, local branch: same as `memory` with key
`_PYSPARK_MEM`. -/
def ExecutorResourceRequests.pysparkMemory (r : ExecutorResourceRequests)
    (amount : String) : Except String ExecutorResourceRequests :=
  match _parse_memory amount with
  | .error e => .error e
  | .ok n =>
      .ok ⟨dictInsert r._executor_resources _PYSPARK_MEM
        ⟨_PYSPARK_MEM, Amount.int (Int.ofNat n), "", ""⟩⟩

/-- `cores`, local branch:
`self._executor_resources[self._CORES] =
  ExecutorResourceRequest(self._CORES, amount)`.
The amount is stored untouched; the method cannot raise. -/
def ExecutorResourceRequests.cores (r : ExecutorResourceRequests)
    (amount : Int) : ExecutorResourceRequests :=
  ⟨dictInsert r._executor_resources _CORES ⟨_CORES, Amount.int amount, "", ""⟩⟩

/-- `resource`, local branch:
`self._executor_resources[resourceName] =
  ExecutorResourceRequest(resourceName, amount, discoveryScript, vendor)`.
In the source `discoveryScript` and `vendor` default to `""`; callers
relying on the defaults are modelled by passing `""` explicitly.  The
amount is stored untouched; the method cannot raise. -/
def ExecutorResourceRequests.resource (r : ExecutorResourceRequests)
    (resourceName : String) (amount : Amount)
    (discoveryScript : String) (vendor : String) : ExecutorResourceRequests :=
  ⟨dictInsert r._executor_resources resourceName
    ⟨resourceName, amount, discoveryScript, vendor⟩⟩

/-- One fluent setter call on the collector. -/
inductive Op where
  | memory (amount : String)
  | memoryOverhead (amount : String)
  | pysparkMemory (amount : String)
  | cores (amount : Int)
  | resource (resourceName : String) (amount : Amount)
      (discoveryScript : String) (vendor : String)
deriving DecidableEq, Repr

/-- The dict key a setter call targets. -/
def Op.key : Op → String
  | .memory _ => _MEMORY
  | .memoryOverhead _ => _OVERHEAD_MEM
  | .pysparkMemory _ => _PYSPARK_MEM
  | .cores _ => _CORES
  | .resource n _ _ _ => n

/-- The `ExecutorResourceRequest` a setter call builds, or the parse
error it raises. -/
def Op.request : Op → Except String ExecutorResourceRequest
  | .memory a =>
      (_parse_memory a).map fun n => ⟨_MEMORY, Amount.int (Int.ofNat n), "", ""⟩
  | .memoryOverhead a =>
      (_parse_memory a).map fun n => ⟨_OVERHEAD_MEM, Amount.int (Int.ofNat n), "", ""⟩
  | .pysparkMemory a =>
      (_parse_memory a).map fun n => ⟨_PYSPARK_MEM, Amount.int (Int.ofNat n), "", ""⟩
  | .cores a => .ok ⟨_CORES, Amount.int a, "", ""⟩
  | .resource n a d v => .ok ⟨n, a, d, v⟩

/-- Runs one setter call on a locally-backed collector. -/
def apply (r : ExecutorResourceRequests) : Op → Except String ExecutorResourceRequests
  | .memory a => r.memory a
  | .memoryOverhead a => r.memoryOverhead a
  | .pysparkMemory a => r.pysparkMemory a
  | .cores a => .ok (r.cores a)
  | .resource n a d v => .ok (r.resource n a d v)

/-- Runs a chain of setter calls left to right, as fluent chaining does;
the first raised error aborts the chain. -/
def applyAll (r : ExecutorResourceRequests) : List Op → Except String ExecutorResourceRequests
  | [] => .ok r
  | op :: ops =>
      match apply r op with
      | .error e => .error e
      | .ok r₁ => applyAll r₁ ops

/-- State-passing semantics of a setter call: the mapping state after the
call returns or raises, paired with the outcome.  In the source the
right-hand side `ExecutorResourceRequest(key, _parse_memory(amount))` is
evaluated before the dict assignment executes, so a raised parse error
leaves `_executor_resources` exactly as it was. -/
def applyS (r : ExecutorResourceRequests) (op : Op) :
    ExecutorResourceRequests × Except String Unit :=
  match apply r op with
  | .error e => (r, .error e)
  | .ok r₁ => (r₁, .ok ())

instance {ε α : Type} [DecidableEq ε] [DecidableEq α] : DecidableEq (Except ε α) :=
  fun a b =>
    match a, b with
    | .error e, .error f => decidable_of_iff (e = f) (by simp)
    | .error _, .ok _ => isFalse (by simp)
    | .ok _, .error _ => isFalse (by simp)
    | .ok x, .ok y => decidable_of_iff (x = y) (by simp)

theorem dictGet_dictInsert_self (d : List (String × α)) (k : String) (v : α) :
    dictGet (dictInsert d k v) k = some v := by
  induction d with
  | nil => simp [dictInsert, dictGet]
  | cons p rest ih =>
      obtain ⟨k₀, v₀⟩ := p
      by_cases h : k₀ = k <;> simp [dictInsert, dictGet, h, ih]

theorem dictKeys_nil : dictKeys ([] : List (String × α)) = [] := rfl

theorem dictKeys_cons (k₀ : String) (v₀ : α) (rest : List (String × α)) :
    dictKeys ((k₀, v₀) :: rest) = k₀ :: dictKeys rest := rfl

theorem dictGet_dictInsert_ne (d : List (String × α)) (k k₁ : String) (v : α)
    (h : k₁ ≠ k) : dictGet (dictInsert d k v) k₁ = dictGet d k₁ := by
  have hne : ¬k = k₁ := fun he => h he.symm
  induction d with
  | nil => simp [dictInsert, dictGet, hne]
  | cons p rest ih =>
      obtain ⟨k₀, v₀⟩ := p
      by_cases hk : k₀ = k
      · subst hk
        simp [dictInsert, dictGet, hne]
      · simp [dictInsert, dictGet, hk, ih]

theorem dictKeys_dictInsert_mem (d : List (String × α)) (k : String) (v : α)
    (h : k ∈ dictKeys d) : dictKeys (dictInsert d k v) = dictKeys d := by
  induction d with
  | nil => simp [dictKeys_nil] at h
  | cons p rest ih =>
      obtain ⟨k₀, v₀⟩ := p
      by_cases hk : k₀ = k
      · simp [dictInsert, dictKeys_cons, hk]
      · rw [dictKeys_cons] at h
        rcases List.mem_cons.mp h with h₁ | h₂
        · exact absurd h₁.symm hk
        · simp [dictInsert, dictKeys_cons, hk, ih h₂]

theorem dictKeys_dictInsert_not_mem (d : List (String × α)) (k : String) (v : α)
    (h : k ∉ dictKeys d) : dictKeys (dictInsert d k v) = dictKeys d ++ [k] := by
  induction d with
  | nil => simp [dictInsert, dictKeys_cons, dictKeys_nil]
  | cons p rest ih =>
      obtain ⟨k₀, v₀⟩ := p
      rw [dictKeys_cons] at h
      have h₁ : ¬k₀ = k := fun he => h (by rw [← he]; exact List.mem_cons_self _ _)
      have h₂ : k ∉ dictKeys rest := fun hm => h (List.mem_cons_of_mem _ hm)
      simp [dictInsert, dictKeys_cons, h₁, ih h₂]

theorem nodup_dictKeys_dictInsert (d : List (String × α)) (k : String) (v : α)
    (h : (dictKeys d).Nodup) : (dictKeys (dictInsert d k v)).Nodup := by
  by_cases hm : k ∈ dictKeys d
  · rw [dictKeys_dictInsert_mem d k v hm]
    exact h
  · rw [dictKeys_dictInsert_not_mem d k v hm]
    simp [List.nodup_append, h, hm]

theorem mem_dictKeys_dictInsert (d : List (String × α)) (k : String) (v : α) :
    k ∈ dictKeys (dictInsert d k v) := by
  by_cases hm : k ∈ dictKeys d
  · rw [dictKeys_dictInsert_mem d k v hm]
    exact hm
  · rw [dictKeys_dictInsert_not_mem d k v hm]
    simp

theorem count_dictKeys_dictInsert (d : List (String × α)) (k : String) (v : α)
    (h : (dictKeys d).Nodup) : (dictKeys (dictInsert d k v)).count k = 1 :=
  List.count_eq_one_of_mem (nodup_dictKeys_dictInsert d k v h)
    (mem_dictKeys_dictInsert d k v)

theorem apply_eq (r : ExecutorResourceRequests) (op : Op) :
    apply r op = Except.map
      (fun req => ⟨dictInsert r._executor_resources op.key req⟩) op.request := by
  cases op with
  | memory a =>
      simp only [apply, ExecutorResourceRequests.memory, Op.request, Op.key]
      cases _parse_memory a <;> simp [Except.map]
  | memoryOverhead a =>
      simp only [apply, ExecutorResourceRequests.memoryOverhead, Op.request, Op.key]
      cases _parse_memory a <;> simp [Except.map]
  | pysparkMemory a =>
      simp only [apply, ExecutorResourceRequests.pysparkMemory, Op.request, Op.key]
      cases _parse_memory a <;> simp [Except.map]
  | cores a =>
      simp [apply, ExecutorResourceRequests.cores, Op.request, Op.key, Except.map]
  | resource n a d v =>
      simp [apply, ExecutorResourceRequests.resource, Op.request, Op.key, Except.map]

theorem apply_ok_iff (r r₁ : ExecutorResourceRequests) (op : Op) :
    apply r op = .ok r₁ ↔
      ∃ req, op.request = .ok req ∧
        r₁ = ⟨dictInsert r._executor_resources op.key req⟩ := by
  rw [apply_eq]
  cases h : op.request with
  | error e => simp [Except.map]
  | ok req => simp [Except.map, eq_comm]

/-- C1: for every valid size string `s`, on a locally-backed collector the
call `memory s` succeeds and stores under key "memory" a request whose
amount is the byte count `s` denotes (the parse result of `s`); in
particular `memory "2g"` yields amount 2147483648. -/
theorem C1_memory_stores_parsed_bytes :
    (∀ (r : ExecutorResourceRequests) (s : String) (n : Nat),
      _parse_memory s = .ok n →
      ∃ r₁, r.memory s = .ok r₁ ∧
        dictGet r₁.requests "memory" =
          some ⟨"memory", Amount.int (Int.ofNat n), "", ""⟩) ∧
    ExecutorResourceRequests.empty.memory "2g" =
      .ok ⟨[("memory", ⟨"memory", Amount.int 2147483648, "", ""⟩)]⟩ := by
  constructor
  · intro r s n h
    refine ⟨⟨dictInsert r._executor_resources _MEMORY
      ⟨_MEMORY, Amount.int (Int.ofNat n), "", ""⟩⟩, ?_, ?_⟩
    · simp [ExecutorResourceRequests.memory, h]
    · simpa [ExecutorResourceRequests.requests, _MEMORY] using
        dictGet_dictInsert_self r._executor_resources _MEMORY
          ⟨_MEMORY, Amount.int (Int.ofNat n), "", ""⟩
  · decide

/-- Witness for C1 at the concrete valid size string "2g". -/
theorem C1_memory_stores_parsed_bytes_witness :
    _parse_memory "2g" = .ok 2147483648 ∧
    ∃ r₁, ExecutorResourceRequests.empty.memory "2g" = .ok r₁ ∧
      dictGet r₁.requests "memory" =
        some ⟨"memory", Amount.int (Int.ofNat 2147483648), "", ""⟩ :=
  ⟨by decide, C1_memory_stores_parsed_bytes.1 ExecutorResourceRequests.empty
    "2g" 2147483648 (by decide)⟩

/-- C5: `resource name amount` with the source defaults for
discoveryScript and vendor (both `""`) stores under key `name` a request
whose discoveryScript and vendor are both the empty string. -/
theorem C5_resource_default_script_vendor (r : ExecutorResourceRequests)
    (name : String) (amount : Amount) :
    dictGet (r.resource name amount "" "").requests name =
      some ⟨name, amount, "", ""⟩ := by
  simpa [ExecutorResourceRequests.resource, ExecutorResourceRequests.requests] using
    dictGet_dictInsert_self r._executor_resources name ⟨name, amount, "", ""⟩

/-- C6: `cores n` stores under key "cores" a request whose amount is
exactly the integer `n`, untransformed. -/
theorem C6_cores_raw_integer (r : ExecutorResourceRequests) (n : Int) :
    dictGet (r.cores n).requests "cores" =
      some ⟨"cores", Amount.int n, "", ""⟩ := by
  simpa [ExecutorResourceRequests.cores, ExecutorResourceRequests.requests, _CORES] using
    dictGet_dictInsert_self r._executor_resources _CORES
      ⟨_CORES, Amount.int n, "", ""⟩

/-- C7: on a valid size string, `memoryOverhead` stores its request under
key "memoryOverhead" and `pysparkMemory` under key "pyspark.memory", and
each stored request carries its key as its resourceName. -/
theorem C7_overhead_and_pyspark_keys (r : ExecutorResourceRequests)
    (s : String) (n : Nat) (h : _parse_memory s = .ok n) :
    (∃ r₁, r.memoryOverhead s = .ok r₁ ∧
      dictGet r₁.requests "memoryOverhead" =
        some ⟨"memoryOverhead", Amount.int (Int.ofNat n), "", ""⟩) ∧
    (∃ r₁, r.pysparkMemory s = .ok r₁ ∧
      dictGet r₁.requests "pyspark.memory" =
        some ⟨"pyspark.memory", Amount.int (Int.ofNat n), "", ""⟩) := by
  constructor
  · refine ⟨⟨dictInsert r._executor_resources _OVERHEAD_MEM
      ⟨_OVERHEAD_MEM, Amount.int (Int.ofNat n), "", ""⟩⟩, ?_, ?_⟩
    · simp [ExecutorResourceRequests.memoryOverhead, h]
    · simpa [ExecutorResourceRequests.requests, _OVERHEAD_MEM] using
        dictGet_dictInsert_self r._executor_resources _OVERHEAD_MEM
          ⟨_OVERHEAD_MEM, Amount.int (Int.ofNat n), "", ""⟩
  · refine ⟨⟨dictInsert r._executor_resources _PYSPARK_MEM
      ⟨_PYSPARK_MEM, Amount.int (Int.ofNat n), "", ""⟩⟩, ?_, ?_⟩
    · simp [ExecutorResourceRequests.pysparkMemory, h]
    · simpa [ExecutorResourceRequests.requests, _PYSPARK_MEM] using
        dictGet_dictInsert_self r._executor_resources _PYSPARK_MEM
          ⟨_PYSPARK_MEM, Amount.int (Int.ofNat n), "", ""⟩

/-- Witness for C7 at the concrete valid size string "512m". -/
theorem C7_overhead_and_pyspark_keys_witness :
    _parse_memory "512m" = .ok 536870912 ∧
    ((∃ r₁, ExecutorResourceRequests.empty.memoryOverhead "512m" = .ok r₁ ∧
      dictGet r₁.requests "memoryOverhead" =
        some ⟨"memoryOverhead", Amount.int (Int.ofNat 536870912), "", ""⟩) ∧
    (∃ r₁, ExecutorResourceRequests.empty.pysparkMemory "512m" = .ok r₁ ∧
      dictGet r₁.requests "pyspark.memory" =
        some ⟨"pyspark.memory", Amount.int (Int.ofNat 536870912), "", ""⟩)) :=
  ⟨by decide, C7_overhead_and_pyspark_keys ExecutorResourceRequests.empty
    "512m" 536870912 (by decide)⟩

/-- C2: the at-most-one-request-per-key invariant (pairwise-distinct
keys in the mapping) is preserved by every operation, and after two
setter calls targeting the same key the mapping holds exactly one
request under that key, namely the one built by the later call. -/
theorem C2_overwrite_same_key :
    (∀ (r r₁ : ExecutorResourceRequests) (op : Op),
      (dictKeys r.requests).Nodup → apply r op = .ok r₁ →
      (dictKeys r₁.requests).Nodup) ∧
    (∀ (r r₁ r₂ : ExecutorResourceRequests) (op₁ op₂ : Op),
      (dictKeys r.requests).Nodup → op₁.key = op₂.key →
      apply r op₁ = .ok r₁ → apply r₁ op₂ = .ok r₂ →
      (dictKeys r₂.requests).count op₂.key = 1 ∧
      ∃ req, op₂.request = .ok req ∧
        dictGet r₂.requests op₂.key = some req) := by
  have hpres : ∀ (r r₁ : ExecutorResourceRequests) (op : Op),
      (dictKeys r.requests).Nodup → apply r op = .ok r₁ →
      (dictKeys r₁.requests).Nodup := by
    intro r r₁ op hnd h
    rcases (apply_ok_iff r r₁ op).mp h with ⟨req, _, hr⟩
    subst hr
    exact nodup_dictKeys_dictInsert _ _ _ hnd
  refine ⟨hpres, ?_⟩
  intro r r₁ r₂ op₁ op₂ hnd _ h₁ h₂
  have hnd₁ := hpres r r₁ op₁ hnd h₁
  rcases (apply_ok_iff r₁ r₂ op₂).mp h₂ with ⟨req, hreq, hr⟩
  subst hr
  exact ⟨count_dictKeys_dictInsert _ _ _ hnd₁, req, hreq,
    dictGet_dictInsert_self _ _ _⟩

/-- Witness for C2: two `cores` calls on a fresh collector; the second
value is the one retained, under exactly one "cores" entry. -/
theorem C2_overwrite_same_key_witness :
    (dictKeys (⟨[("cores", ⟨"cores", Amount.int 2, "", ""⟩)]⟩ :
      ExecutorResourceRequests).requests).count (Op.cores 2).key = 1 :=
  (C2_overwrite_same_key.2 ExecutorResourceRequests.empty
    ⟨[("cores", ⟨"cores", Amount.int 1, "", ""⟩)]⟩
    ⟨[("cores", ⟨"cores", Amount.int 2, "", ""⟩)]⟩
    (Op.cores 1) (Op.cores 2) (by decide) (by decide)
    (by decide) (by decide)).1

/-- C3: a malformed size string (e.g. "2x") makes `memory`,
`memoryOverhead` and `pysparkMemory` fail with the parsing error
propagated unchanged to the caller, yielding no updated collector; the
remaining operations (`cores`, `resource`) never raise. -/
theorem C3_parse_error_propagates :
    (∃ e, _parse_memory "2x" = .error e) ∧
    (∀ (r : ExecutorResourceRequests) (s e : String),
      _parse_memory s = .error e →
      r.memory s = .error e ∧ r.memoryOverhead s = .error e ∧
        r.pysparkMemory s = .error e) ∧
    (∀ (r : ExecutorResourceRequests) (n : Int),
      apply r (Op.cores n) = .ok (r.cores n)) ∧
    (∀ (r : ExecutorResourceRequests) (name : String) (a : Amount)
      (d v : String),
      apply r (Op.resource name a d v) = .ok (r.resource name a d v)) := by
  refine ⟨⟨"invalid format: 2x", by decide⟩, ?_, fun r n => rfl,
    fun r name a d v => rfl⟩
  intro r s e h
  exact ⟨by simp [ExecutorResourceRequests.memory, h],
    by simp [ExecutorResourceRequests.memoryOverhead, h],
    by simp [ExecutorResourceRequests.pysparkMemory, h]⟩

/-- Witness for C3 at the malformed input "2x". -/
theorem C3_parse_error_propagates_witness :
    ExecutorResourceRequests.empty.memory "2x" =
        .error "invalid format: 2x" ∧
      ExecutorResourceRequests.empty.memoryOverhead "2x" =
        .error "invalid format: 2x" ∧
      ExecutorResourceRequests.empty.pysparkMemory "2x" =
        .error "invalid format: 2x" :=
  C3_parse_error_propagates.2.1 ExecutorResourceRequests.empty "2x"
    "invalid format: 2x" (by decide)

/-- C8: frame property — a single setter call changes at most the entry
under its own target key; lookup at every other key is unchanged. -/
theorem C8_frame (r r₁ : ExecutorResourceRequests) (op : Op) (k : String)
    (hk : k ≠ op.key) (h : apply r op = .ok r₁) :
    dictGet r₁.requests k = dictGet r.requests k := by
  rcases (apply_ok_iff r r₁ op).mp h with ⟨req, _, hr⟩
  subst hr
  exact dictGet_dictInsert_ne _ _ _ _ hk

/-- Witness for C8: a `memory` call leaves the "cores" entry intact. -/
theorem C8_frame_witness :
    dictGet (⟨[("cores", ⟨"cores", Amount.int 4, "", ""⟩),
        ("memory", ⟨"memory", Amount.int 2147483648, "", ""⟩)]⟩ :
      ExecutorResourceRequests).requests "cores" =
    dictGet (⟨[("cores", ⟨"cores", Amount.int 4, "", ""⟩)]⟩ :
      ExecutorResourceRequests).requests "cores" :=
  C8_frame ⟨[("cores", ⟨"cores", Amount.int 4, "", ""⟩)]⟩
    ⟨[("cores", ⟨"cores", Amount.int 4, "", ""⟩),
      ("memory", ⟨"memory", Amount.int 2147483648, "", ""⟩)]⟩
    (Op.memory "2g") "cores" (by decide) (by decide)

/-- C9: `resource` never parses its amount, even when the key is a
reserved one: it stores the amount verbatim under the given key, so
`resource "memory" "2g"` leaves the unparsed string "2g" as the amount
and overwrites any earlier "memory" entry, unlike `memory "2g"`, which
stores the parsed byte count 2147483648. -/
theorem C9_resource_never_parses :
    (∀ (r : ExecutorResourceRequests) (name : String) (a : Amount)
      (d v : String),
      dictGet (r.resource name a d v).requests name =
        some ⟨name, a, d, v⟩) ∧
    (ExecutorResourceRequests.empty.resource "memory" (Amount.str "2g")
        "" "").requests =
      [("memory", ⟨"memory", Amount.str "2g", "", ""⟩)] ∧
    ((⟨[("memory", ⟨"memory", Amount.int 2147483648, "", ""⟩)]⟩ :
        ExecutorResourceRequests).resource "memory" (Amount.str "2g")
        "" "").requests =
      [("memory", ⟨"memory", Amount.str "2g", "", ""⟩)] ∧
    ExecutorResourceRequests.empty.memory "2g" =
      .ok ⟨[("memory", ⟨"memory", Amount.int 2147483648, "", ""⟩)]⟩ := by
  refine ⟨?_, by decide, by decide, by decide⟩
  intro r name a d v
  simpa [ExecutorResourceRequests.resource,
    ExecutorResourceRequests.requests] using
    dictGet_dictInsert_self r._executor_resources name ⟨name, a, d, v⟩

/-- C10: atomicity on error — when a memory setter raises a parsing
error, the post-call mapping state equals the pre-call state exactly:
the parse runs while the stored request is being built, before the dict
assignment executes. -/
theorem C10_error_leaves_state (r : ExecutorResourceRequests) (s e : String)
    (h : _parse_memory s = .error e) :
    applyS r (Op.memory s) = (r, .error e) ∧
    applyS r (Op.memoryOverhead s) = (r, .error e) ∧
    applyS r (Op.pysparkMemory s) = (r, .error e) := by
  refine ⟨?_, ?_, ?_⟩ <;>
    simp [applyS, apply, ExecutorResourceRequests.memory,
      ExecutorResourceRequests.memoryOverhead,
      ExecutorResourceRequests.pysparkMemory, h]

/-- Witness for C10: a failing `memory "2x"` call on a nonempty
collector leaves its mapping untouched. -/
theorem C10_error_leaves_state_witness :
    applyS (⟨[("cores", ⟨"cores", Amount.int 4, "", ""⟩)]⟩ :
        ExecutorResourceRequests) (Op.memory "2x") =
      (⟨[("cores", ⟨"cores", Amount.int 4, "", ""⟩)]⟩,
        .error "invalid format: 2x") ∧
    applyS (⟨[("cores", ⟨"cores", Amount.int 4, "", ""⟩)]⟩ :
        ExecutorResourceRequests) (Op.memoryOverhead "2x") =
      (⟨[("cores", ⟨"cores", Amount.int 4, "", ""⟩)]⟩,
        .error "invalid format: 2x") ∧
    applyS (⟨[("cores", ⟨"cores", Amount.int 4, "", ""⟩)]⟩ :
        ExecutorResourceRequests) (Op.pysparkMemory "2x") =
      (⟨[("cores", ⟨"cores", Amount.int 4, "", ""⟩)]⟩,
        .error "invalid format: 2x") :=
  C10_error_leaves_state ⟨[("cores", ⟨"cores", Amount.int 4, "", ""⟩)]⟩
    "2x" "invalid format: 2x" (by decide)

theorem applyAll_frame (ops : List Op) :
    ∀ (r r₁ : ExecutorResourceRequests) (k : String),
    (∀ op ∈ ops, op.key ≠ k) → applyAll r ops = .ok r₁ →
    dictGet r₁.requests k = dictGet r.requests k := by
  induction ops with
  | nil =>
      intro r r₁ k _ h
      cases h
      rfl
  | cons op ops ih =>
      intro r r₁ k hk h
      simp only [applyAll] at h
      cases happ : apply r op with
      | error e => rw [happ] at h; cases h
      | ok r₂ =>
          rw [happ] at h
          rcases (apply_ok_iff r r₂ op).mp happ with ⟨req, _, hr⟩
          subst hr
          rw [ih _ _ _ (fun o ho => hk o (List.mem_cons_of_mem _ ho)) h]
          exact dictGet_dictInsert_ne _ _ _ _
            (fun he => hk op (List.mem_cons_self _ _) he.symm)

theorem applyAll_distinct (ops : List Op) :
    ∀ (r r₁ : ExecutorResourceRequests),
    (ops.map Op.key).Nodup →
    (∀ op ∈ ops, op.key ∉ dictKeys r.requests) →
    applyAll r ops = .ok r₁ →
    dictKeys r₁.requests = dictKeys r.requests ++ ops.map Op.key ∧
    (∀ op ∈ ops, ∃ req, op.request = .ok req ∧
      dictGet r₁.requests op.key = some req) := by
  induction ops with
  | nil =>
      intro r r₁ _ _ h
      cases h
      simp
  | cons op ops ih =>
      intro r r₁ hnd hfresh h
      simp only [applyAll] at h
      cases happ : apply r op with
      | error e => rw [happ] at h; cases h
      | ok r₂ =>
          rw [happ] at h
          rcases (apply_ok_iff r r₂ op).mp happ with ⟨req, hreq, hr⟩
          subst hr
          have hkeymem : op.key ∉ dictKeys r.requests :=
            hfresh op (List.mem_cons_self _ _)
          have hkeys₂ : dictKeys
              (ExecutorResourceRequests.mk
                (dictInsert r._executor_resources op.key req)).requests =
              dictKeys r.requests ++ [op.key] :=
            dictKeys_dictInsert_not_mem _ _ _ hkeymem
          have hndtail : (ops.map Op.key).Nodup :=
            (List.nodup_cons.mp (by simpa using hnd)).2
          have hheadtail : op.key ∉ ops.map Op.key :=
            (List.nodup_cons.mp (by simpa using hnd)).1
          have hfresh₂ : ∀ o ∈ ops, o.key ∉ dictKeys
              (ExecutorResourceRequests.mk
                (dictInsert r._executor_resources op.key req)).requests := by
            intro o ho
            rw [hkeys₂]
            intro hmem
            rcases List.mem_append.mp hmem with hm | hm
            · exact hfresh o (List.mem_cons_of_mem _ ho) hm
            · have : o.key = op.key := by simpa using hm
              exact hheadtail (this ▸ List.mem_map_of_mem Op.key ho)
          rcases ih _ _ hndtail hfresh₂ h with ⟨hkeys₁, hget₁⟩
          constructor
          · rw [hkeys₁, hkeys₂]
            simp
          · intro o ho
            rcases List.mem_cons.mp ho with rfl | hm
            · refine ⟨req, hreq, ?_⟩
              have hframe := applyAll_frame ops _ r₁ o.key
                (fun o₂ ho₂ he => hheadtail (he ▸ List.mem_map_of_mem Op.key ho₂)) h
              rw [hframe]
              exact dictGet_dictInsert_self _ _ _
            · exact hget₁ o hm

/-- C4: every setter returns the collector itself, carrying exactly its
one dict update, and chaining any sequence of setters with
pairwise-distinct keys on a fresh locally-backed collector yields a
mapping with exactly one entry per key used, in call order, and no
other entries. -/
theorem C4_chaining_distinct_keys :
    (∀ (r : ExecutorResourceRequests) (op : Op),
      apply r op = Except.map
        (fun req => ⟨dictInsert r._executor_resources op.key req⟩)
        op.request) ∧
    (∀ (ops : List Op) (r₁ : ExecutorResourceRequests),
      (ops.map Op.key).Nodup →
      applyAll ExecutorResourceRequests.empty ops = .ok r₁ →
      dictKeys r₁.requests = ops.map Op.key ∧
      (∀ op ∈ ops, ∃ req, op.request = .ok req ∧
        dictGet r₁.requests op.key = some req)) := by
  refine ⟨apply_eq, ?_⟩
  intro ops r₁ hnd h
  have := applyAll_distinct ops ExecutorResourceRequests.empty r₁ hnd
    (by intro op _; simp [ExecutorResourceRequests.empty,
      ExecutorResourceRequests.requests, dictKeys_nil]) h
  simpa [ExecutorResourceRequests.empty, ExecutorResourceRequests.requests,
    dictKeys_nil] using this

/-- Witness for C4: the chain from the spec example,
`cores(4).memory("2g").resource("gpu", 1, "/opt/getGpus", "nvidia")`,
yields the keys "cores", "memory", "gpu" and nothing else. -/
theorem C4_chaining_distinct_keys_witness :
    dictKeys ((⟨[("cores", ⟨"cores", Amount.int 4, "", ""⟩),
        ("memory", ⟨"memory", Amount.int 2147483648, "", ""⟩),
        ("gpu", ⟨"gpu", Amount.int 1, "/opt/getGpus", "nvidia"⟩)]⟩ :
      ExecutorResourceRequests).requests) =
      [Op.cores 4, Op.memory "2g",
        Op.resource "gpu" (Amount.int 1) "/opt/getGpus" "nvidia"].map
        Op.key :=
  (C4_chaining_distinct_keys.2
    [Op.cores 4, Op.memory "2g",
      Op.resource "gpu" (Amount.int 1) "/opt/getGpus" "nvidia"]
    ⟨[("cores", ⟨"cores", Amount.int 4, "", ""⟩),
      ("memory", ⟨"memory", Amount.int 2147483648, "", ""⟩),
      ("gpu", ⟨"gpu", Amount.int 1, "/opt/getGpus", "nvidia"⟩)]⟩
    (by decide) (by decide)).1

end PysparkResource
